import Mathlib

/-!
Verification of the sleep_assistant concurrent pipeline engine.

The definitions below are a shallow embedding of the Python sources under
`src/app/`: `main.py` (supervisor), `producer.py` (producer loop),
`consumer.py` (consumer loop), `bgm.py` (background-music volume tweening)
and `config.py` (configuration loading).  Threads are modelled as
sequential loops with explicit fuel; the shared `threading.Event` flags are
modelled as booleans held constant over the window of execution being
analysed (the scenarios considered set a flag once and never clear it
during that window); Python floats are modelled as rationals; blocking
calls with timeouts are modelled by their outcome at expiry.
-/

namespace SleepAssistant

/-! ### WakeSignal — `threading.Event` used as wake_producer_event

`raiseSignal` is `Event.set()`, `waitAndClear` is the producer's
`wait(timeout)` at the moment the flag is inspected, followed by `clear()`
on success (producer.py lines 160-166): if the flag is up the wait returns
true and the flag is cleared; if the timeout expires with the flag down the
wait returns false and the flag is left as it was. -/

def raiseSignal (_ : Bool) : Bool := true

def waitAndClear (s : Bool) : Bool × Bool :=
  if s then (true, false) else (false, s)

/-- n successive `set()` calls with no intervening `clear()`. -/
def raiseN : Nat → Bool → Bool
  | 0, s => s
  | n + 1, s => raiseSignal (raiseN n s)

/-! ### BoundedQueue — `queue.Queue(maxsize=cfg.queue_maxsize)` (main.py line 26)

`qpush` models `queue.put(item, timeout=...)` observed at timeout expiry
with no concurrent consumer making space: it succeeds iff the queue is not
full, otherwise it reports `none` (the `queue.Full` timeout).  `qpop`
models `queue.get(timeout=...)`: `none` is the `Empty` poll miss. -/

structure BQueue where
  capacity : Nat
  items : List String
deriving DecidableEq

def qpush (q : BQueue) (x : String) : Option BQueue :=
  if q.items.length < q.capacity then some { q with items := q.items ++ [x] } else none

def qpop (q : BQueue) : Option (String × BQueue) :=
  match q.items with
  | [] => none
  | x :: rest => some (x, { q with items := rest })

def qsize (q : BQueue) : Nat := q.items.length

inductive QueueOp
  | push (x : String)
  | pop
deriving DecidableEq

/-- Apply one operation; a failed push (timeout) or failed pop (empty)
leaves the queue unchanged. -/
def applyOp (q : BQueue) : QueueOp → BQueue
  | .push x => (qpush q x).getD q
  | .pop =>
    match qpop q with
    | none => q
    | some (_, q2) => q2

def applyOps (q : BQueue) : List QueueOp → BQueue
  | [] => q
  | op :: ops => applyOps (applyOp q op) ops

def emptyQueue (cap : Nat) : BQueue := ⟨cap, []⟩

/-! ### Consumer item handling — consumer.py lines 151-162

After a successful pop the consumer runs

    try:
        if stop: break
        wav = tts.synthesize(text)
        if stop: break
        play(wav)
    except Exception: log
    finally: queue.task_done()

`handleItem` maps the outcome of each oracle (the two stop checks, whether
synthesis raises, whether playback raises) to the trace of calls made while
handling the item, together with whether the loop breaks. -/

inductive ItemEvent
  | synthCall
  | playCall
  | duckCall
  | unduckCall
  | taskDone
deriving DecidableEq

def handleItem (stopBeforeSynth synthOk stopAfterSynth playOk : Bool) :
    List ItemEvent × Bool :=
  if stopBeforeSynth then
    ([ItemEvent.taskDone], true)
  else if !synthOk then
    ([ItemEvent.synthCall, ItemEvent.taskDone], false)
  else if stopAfterSynth then
    ([ItemEvent.synthCall, ItemEvent.taskDone], true)
  else if playOk then
    ([ItemEvent.synthCall, ItemEvent.playCall, ItemEvent.taskDone], false)
  else
    ([ItemEvent.synthCall, ItemEvent.playCall, ItemEvent.taskDone], false)

/-! ### Consumer loop — consumer.py lines 141-171

`consumerRun fuel stop q` runs the consumer's `while not stop_event` loop
with the stop flag constant at `stop` over the window analysed, returning
the list of items actually processed (synthesized/played or dropped on
failure) and the items left unprocessed in the queue when the loop exits.
An `Empty` poll miss on an empty queue just re-enters the loop. -/

def consumerRun : Nat → Bool → List String → List String × List String
  | 0, _, q => ([], q)
  | fuel + 1, stop, q =>
    if stop then ([], q)
    else
      match q with
      | [] => consumerRun fuel stop []
      | x :: rest =>
        let r := consumerRun fuel stop rest
        (x :: r.1, r.2)

/-! ### Producer — producer.py

`_process_next_news` (lines 120-156): if the news cursor is past the end of
the prefetched list it returns `none` (no more news, cursor unchanged);
otherwise it advances the cursor and returns the transcript agent's
paragraphs, or — when the agent raises — the hard-coded fallback paragraph.
A news item is modelled by the outcome of processing it. -/

inductive NewsOutcome
  | ok (paragraphs : List String)
  | fail
deriving DecidableEq

def fallbackParagraph : String :=
  "Let us move on to the next story. May your mind stay calm and peaceful as you rest."

def goodbyeMessage : String :=
  "That's all for tonight's news. Thank you for listening. May you have a peaceful and restful sleep. Goodnight."

def processNextNews (items : List NewsOutcome) (idx : Nat) : Option (List String) × Nat :=
  match items[idx]? with
  | none => (none, idx)
  | some (.ok ps) => (some ps, idx + 1)
  | some .fail => (some [fallbackParagraph], idx + 1)

/-- Producer state: news cursor plus the log of every string put on the
queue so far (pushes are assumed to succeed within their timeout). -/
structure ProdState where
  idx : Nat
  pushes : List String
deriving DecidableEq

/-- The inner `for _ in range(batch_produce_count)` loop of producer.run
(lines 168-191) with the stop flag down: `none` from `processNextNews`
enqueues the goodbye message once and breaks out of the batch; otherwise
every returned paragraph is enqueued and the batch continues. -/
def batchLoop (items : List NewsOutcome) : Nat → ProdState → ProdState
  | 0, st => st
  | n + 1, st =>
    match processNextNews items st.idx with
    | (none, idx2) => { idx := idx2, pushes := st.pushes ++ [goodbyeMessage] }
    | (some ps, idx2) => batchLoop items n { idx := idx2, pushes := st.pushes ++ ps }

/-- The outer `while not stop_event` loop of producer.run (lines 158-195)
with the stop flag constant at `stop` and the wake event raised on every
cycle (the consumer re-raises it whenever occupancy is at or below the
low-watermark); each successful wake clears the event and runs one batch. -/
def producerRun : Nat → Bool → List NewsOutcome → Nat → ProdState → ProdState
  | 0, _, _, _, st => st
  | fuel + 1, stop, items, batch, st =>
    if stop then st
    else producerRun fuel stop items batch (batchLoop items batch st)

/-! ### Supervisor — main.py

`handleSignal` is the installed SIGINT/SIGTERM handler (lines 59-68): the
first signal sets the stop event (and wakes the producer); any further
signal sets the force-exit event.  `exitStatus` is the final status
computation (lines 99-104). -/

structure SupState where
  firstSignalReceived : Bool
  stopSet : Bool
  forceExit : Bool
deriving DecidableEq

def initialSupState : SupState := ⟨false, false, false⟩

def handleSignal (s : SupState) : SupState :=
  if !s.firstSignalReceived then
    { s with firstSignalReceived := true, stopSet := true }
  else
    { s with forceExit := true }

def exitStatus (forceExit : Bool) : Nat := if forceExit then 130 else 0

/-- The supervisor's join loop (main.py lines 81-104), in milliseconds,
for the window after the signals in `s` have been delivered (no further
signals arrive) and with worker threads that stay alive throughout — the
hang the grace deadline exists for.  Each iteration performs the two
0.25 s joins (advancing time by 500 ms), then records
`graceful_shutdown_started_at` if the stop event is set and it is unset,
then breaks once the elapsed time since that mark exceeds 5.0 s.  On any
exit the function returns the final status, which depends only on the
force-exit event; `none` means the fuel ran out before the loop exited. -/
def superviseLoop (s : SupState) : Nat → Nat → Option Nat → Option Nat
  | 0, _, _ => none
  | fuel + 1, now, graceStart =>
    if s.forceExit then some (exitStatus s.forceExit)
    else
      let now2 := now + 500
      let g := if s.stopSet && graceStart.isNone then some now2 else graceStart
      match g with
      | some t =>
        if now2 - t > 5000 then some (exitStatus s.forceExit)
        else superviseLoop s fuel now2 g
      | none => superviseLoop s fuel now2 g

/-! ### Volume tween — bgm.py

`_tween_volume` (lines 112-128) with a ready manager and a sink
(`mixer.music.set_volume`) that accepts every write:

    steps = max(1, int(duration * 30))
    dv = (end - start) / steps
    v = start
    for _ in range(steps):
        v = max(0.0, min(1.0, v + dv))
        set_volume(v)
    set_volume(end)

`tweenVolume` returns the list of values written to the sink, in order. -/

def clamp01 (x : ℚ) : ℚ := max 0 (min 1 x)

def tweenSteps (duration : ℚ) : Nat := max 1 ⌊duration * 30⌋.toNat

def tweenLoop (dv : ℚ) : Nat → ℚ → List ℚ
  | 0, _ => []
  | n + 1, v =>
    let v2 := clamp01 (v + dv)
    v2 :: tweenLoop dv n v2

def tweenVolume (start e duration : ℚ) : List ℚ :=
  tweenLoop ((e - start) / (tweenSteps duration : ℚ)) (tweenSteps duration) start ++ [e]

/-! ### BackgroundMusicManager construction and configuration loading

`bgmInitSettings` is the normalisation in `BackgroundMusicManager.__init__`
(bgm.py lines 30-32); `parseBgmFloat` is `_parse_float` in
`load_config` (config.py lines 61-73), with the environment value already
parsed to a rational (`none` = variable unset). -/

structure BgmSettings where
  initialVolume : ℚ
  duckedVolume : ℚ
  fadeSeconds : ℚ
deriving DecidableEq

def bgmInitSettings (initialVolume duckedVolume fadeSeconds : ℚ) : BgmSettings :=
  ⟨max 0 (min 1 initialVolume), max 0 (min 1 duckedVolume), max 0 fadeSeconds⟩

def parseBgmFloat (isFade : Bool) (envVal : Option ℚ) (default : ℚ) : ℚ :=
  match envVal with
  | none => default
  | some f => if isFade then max 0 f else max 0 (min 1 f)

/-- config.py line 71: `bgm_initial_volume = _parse_float("BGM_INITIAL_VOLUME", 2.0)`. -/
def defaultBgmInitialVolume : ℚ := 2

/-! ## Theorems -/

/-- C1: for every item popped from the queue by the consumer, `task_done`
is called exactly once, on every code path of item handling — successful
playback, synthesis failure, playback failure, and shutdown-abandonment at
either stop check after the pop. -/
theorem C1_taskDone_exactly_once
    (stopBeforeSynth synthOk stopAfterSynth playOk : Bool) :
    (handleItem stopBeforeSynth synthOk stopAfterSynth playOk).1.count ItemEvent.taskDone = 1 := by
  cases stopBeforeSynth <;> cases synthOk <;> cases stopAfterSynth <;> cases playOk <;> decide

/-- C4 counterexample: on the fully successful path (no stop, synthesis
succeeds, playback succeeds) the consumer's item handling makes no `duck`
call at all — the claimed duck/unduck bracketing around playback does not
exist in the consumer. -/
theorem C4_counterexample :
    ItemEvent.duckCall ∉ (handleItem false true false true).1 := by decide

/-- C4 amended: the consumer never invokes `duck()` or `unduck()` on any
path of item handling; each item is synthesized and played with no volume
ducking around the playback. -/
theorem C4_no_ducking (stopBeforeSynth synthOk stopAfterSynth playOk : Bool) :
    ItemEvent.duckCall ∉ (handleItem stopBeforeSynth synthOk stopAfterSynth playOk).1 ∧
    ItemEvent.unduckCall ∉ (handleItem stopBeforeSynth synthOk stopAfterSynth playOk).1 := by
  cases stopBeforeSynth <;> cases synthOk <;> cases stopAfterSynth <;> cases playOk <;> decide

/-- C8: raising the wake signal is idempotent; n ≥ 1 raises with no
intervening clear are observed by exactly one successful `waitAndClear`
(the first succeeds, the next one times out); and a `waitAndClear` that
times out returns false and leaves the raised flag unchanged. -/
theorem C8_wake_signal_coalescing (n : Nat) (hn : 1 ≤ n) :
    (∀ s : Bool, raiseSignal (raiseSignal s) = raiseSignal s) ∧
    (waitAndClear (raiseN n false)).1 = true ∧
    (waitAndClear (waitAndClear (raiseN n false)).2).1 = false ∧
    (∀ s : Bool, (waitAndClear s).1 = false → waitAndClear s = (false, s)) := by
  obtain ⟨m, rfl⟩ := Nat.exists_eq_add_of_le hn
  refine ⟨fun s => rfl, ?_, ?_, ?_⟩
  · have h : raiseN (1 + m) false = true := by
      cases m <;> simp [raiseN, raiseSignal, Nat.add_comm]
    rw [h]; rfl
  · have h : raiseN (1 + m) false = true := by
      cases m <;> simp [raiseN, raiseSignal, Nat.add_comm]
    rw [h]; rfl
  · intro s hs
    cases s
    · rfl
    · simp [waitAndClear] at hs

/-- C8 witness: three raises from the cleared state are consumed by exactly
one successful `waitAndClear`, and a timed-out wait is side-effect free. -/
theorem C8_wake_signal_coalescing_witness :
    (∀ s : Bool, raiseSignal (raiseSignal s) = raiseSignal s) ∧
    (waitAndClear (raiseN 3 false)).1 = true ∧
    (waitAndClear (waitAndClear (raiseN 3 false)).2).1 = false ∧
    (∀ s : Bool, (waitAndClear s).1 = false → waitAndClear s = (false, s)) :=
  C8_wake_signal_coalescing 3 (by decide)

lemma applyOp_capacity (q : BQueue) (op : QueueOp) : (applyOp q op).capacity = q.capacity := by
  obtain ⟨cap, items⟩ := q
  cases op with
  | push x =>
    simp only [applyOp, qpush]
    split <;> rfl
  | pop => cases items <;> rfl

lemma applyOp_length (q : BQueue) (op : QueueOp) (h : q.items.length ≤ q.capacity) :
    (applyOp q op).items.length ≤ q.capacity := by
  obtain ⟨cap, items⟩ := q
  cases op with
  | push x =>
    simp only [applyOp, qpush]
    split
    · next hlt =>
      simp only [Option.getD_some, List.length_append, List.length_cons, List.length_nil]
      omega
    · exact h
  | pop =>
    cases items with
    | nil => exact h
    | cons a rest =>
      simp only [List.length_cons] at h
      simp only [applyOp, qpop]
      omega

lemma applyOps_capacity (ops : List QueueOp) (q : BQueue) :
    (applyOps q ops).capacity = q.capacity := by
  induction ops generalizing q with
  | nil => rfl
  | cons op ops ih =>
    simp only [applyOps]
    rw [ih, applyOp_capacity]

lemma applyOps_length (ops : List QueueOp) (q : BQueue) (h : q.items.length ≤ q.capacity) :
    (applyOps q ops).items.length ≤ (applyOps q ops).capacity := by
  induction ops generalizing q with
  | nil => exact h
  | cons op ops ih =>
    simp only [applyOps]
    apply ih
    rw [applyOp_capacity]
    exact applyOp_length q op h

/-- C9: starting from the empty queue, no sequence of push/pop operations
ever brings the occupancy above the configured capacity; a push attempted
on a full queue fails with the timeout (`none`) instead of exceeding
capacity. -/
theorem C9_capacity_invariant :
    (∀ (cap : Nat) (ops : List QueueOp), qsize (applyOps (emptyQueue cap) ops) ≤ cap) ∧
    (∀ (q : BQueue) (x : String), qsize q = q.capacity → qpush q x = none) := by
  constructor
  · intro cap ops
    have h := applyOps_length ops (emptyQueue cap) (by simp [emptyQueue])
    rwa [applyOps_capacity] at h
  · intro q x h
    have hng : ¬ q.items.length < q.capacity := by
      simp only [qsize] at h
      omega
    simp [qpush, hng]

/-- C9 witness: pushing three items into a queue of capacity 2 leaves at
most 2 items, and a push on a full one-slot queue reports the timeout. -/
theorem C9_capacity_invariant_witness :
    qsize (applyOps (emptyQueue 2)
      [QueueOp.push "a", QueueOp.push "b", QueueOp.push "c"]) ≤ 2 ∧
    qpush ⟨1, ["a"]⟩ "b" = none :=
  ⟨C9_capacity_invariant.1 2 [QueueOp.push "a", QueueOp.push "b", QueueOp.push "c"],
   C9_capacity_invariant.2 ⟨1, ["a"]⟩ "b" rfl⟩

/-- C10: the `BackgroundMusicManager` constructor clamps both volumes into
[0,1] and the fade duration to be nonnegative for every input, while the
configuration loader passes the default initial volume 2.0 through
unclamped when `BGM_INITIAL_VOLUME` is unset — a value strictly above 1. -/
theorem C10_constructor_clamps :
    (∀ iv dv fs : ℚ,
      0 ≤ (bgmInitSettings iv dv fs).initialVolume ∧
      (bgmInitSettings iv dv fs).initialVolume ≤ 1 ∧
      0 ≤ (bgmInitSettings iv dv fs).duckedVolume ∧
      (bgmInitSettings iv dv fs).duckedVolume ≤ 1 ∧
      0 ≤ (bgmInitSettings iv dv fs).fadeSeconds) ∧
    parseBgmFloat false none defaultBgmInitialVolume = 2 ∧
    ¬ defaultBgmInitialVolume ≤ 1 := by
  refine ⟨fun iv dv fs => ⟨le_max_left 0 _, max_le (by norm_num) (min_le_left 1 iv),
    le_max_left 0 _, max_le (by norm_num) (min_le_left 1 dv), le_max_left 0 _⟩,
    rfl, by norm_num [defaultBgmInitialVolume]⟩

/-- C3 counterexample: with the stop flag raised and items A, B still in
the queue, the consumer loop exits immediately and processes nothing — it
does not drain the remaining items as claimed. -/
theorem C3_counterexample :
    (consumerRun 5 true ["A", "B"]).1 ≠ ["A", "B"] := by decide

/-- C3 amended: after the first stop signal the producer indeed stops
enqueuing new batches (its loop exits producing nothing further), but the
consumer also stops immediately: it exits its loop processing none of the
items still in the queue, abandoning them there. -/
theorem C3_stop_behavior :
    (∀ (fuel : Nat) (items : List NewsOutcome) (batch : Nat) (st : ProdState),
      producerRun fuel true items batch st = st) ∧
    (∀ (fuel : Nat) (q : List String), consumerRun fuel true q = ([], q)) := by
  constructor
  · intro fuel items batch st
    cases fuel <;> simp [producerRun]
  · intro fuel q
    cases fuel <;> simp [consumerRun]

/-- C7 counterexample: when processing the news item fails, the produce
cycle is not treated as empty — the hard-coded fallback paragraph is
enqueued for that cycle. -/
theorem C7_counterexample :
    (batchLoop [NewsOutcome.fail] 1 ⟨0, []⟩).pushes = [fallbackParagraph] ∧
    ([fallbackParagraph] : List String) ≠ [] := by
  exact ⟨rfl, by simp⟩

/-- C7 amended: a provider failure during a produce step is caught and the
loop continues (the cursor advances and the batch cycle completes
normally), but instead of enqueuing nothing the producer enqueues the one
hard-coded fallback paragraph for that cycle. -/
theorem C7_provider_failure_fallback (items : List NewsOutcome) (idx : Nat)
    (h : items[idx]? = some NewsOutcome.fail) (p : List String) :
    processNextNews items idx = (some [fallbackParagraph], idx + 1) ∧
    batchLoop items 1 ⟨idx, p⟩ = ⟨idx + 1, p ++ [fallbackParagraph]⟩ := by
  constructor
  · simp [processNextNews, h]
  · simp [batchLoop, processNextNews, h]

/-- C7 witness: the failing first item of a two-item list yields the
fallback paragraph and the cycle enqueues exactly that paragraph. -/
theorem C7_provider_failure_fallback_witness :
    processNextNews [NewsOutcome.fail, NewsOutcome.ok ["x"]] 0
      = (some [fallbackParagraph], 1) ∧
    batchLoop [NewsOutcome.fail, NewsOutcome.ok ["x"]] 1 ⟨0, []⟩
      = ⟨1, [fallbackParagraph]⟩ := by
  simpa using C7_provider_failure_fallback [NewsOutcome.fail, NewsOutcome.ok ["x"]] 0 rfl []

/-- A two-item news list whose processing yields the paragraphs A and B
(the end-to-end scenario of the spec with batch count 1). -/
def demoNews : List NewsOutcome := [NewsOutcome.ok ["A"], NewsOutcome.ok ["B"]]

/-- C6 counterexample: with provider content A, B and batch count 1, four
wake cycles make the queue see A, B, goodbye, goodbye — the terminal
closing item is enqueued again on every wake cycle after exhaustion, not
exactly once over the whole run. -/
theorem C6_counterexample :
    (producerRun 4 false demoNews 1 ⟨0, []⟩).pushes
      = ["A", "B", goodbyeMessage, goodbyeMessage] ∧
    (producerRun 4 false demoNews 1 ⟨0, []⟩).pushes.count goodbyeMessage ≠ 1 := by
  constructor
  · rfl
  · decide

lemma batchLoop_exhausted (items : List NewsOutcome) (idx : Nat)
    (h : items.length ≤ idx) (p : List String) (n : Nat) :
    batchLoop items (n + 1) ⟨idx, p⟩ = ⟨idx, p ++ [goodbyeMessage]⟩ := by
  have hn : items[idx]? = none := by
    rw [List.getElem?_eq_none_iff]
    exact h
  simp [batchLoop, processNextNews, hn]

/-- C6 amended: once the provider is exhausted (cursor at or past the end
of the news list), every wake cycle enqueues the terminal closing item
exactly once and produces no news batches, and the loop keeps running: a
run of `fuel` further wake cycles enqueues `fuel` copies of the closing
item, one per cycle — not exactly one over the whole run. -/
theorem C6_one_goodbye_per_cycle (items : List NewsOutcome) (idx : Nat)
    (h : items.length ≤ idx) (p : List String) (batch : Nat) (hb : 1 ≤ batch)
    (fuel : Nat) :
    producerRun fuel false items batch ⟨idx, p⟩
      = ⟨idx, p ++ List.replicate fuel goodbyeMessage⟩ := by
  obtain ⟨m, rfl⟩ : ∃ m, batch = m + 1 := ⟨batch - 1, by omega⟩
  induction fuel generalizing p with
  | zero => simp [producerRun]
  | succ k ih =>
    simp only [producerRun, Bool.false_eq_true, if_false]
    rw [batchLoop_exhausted items idx h p m, ih]
    simp [List.replicate_succ]

/-- C6 witness: three wake cycles after exhaustion of the two demo items
enqueue three copies of the closing item. -/
theorem C6_one_goodbye_per_cycle_witness :
    producerRun 3 false demoNews 1 ⟨2, []⟩
      = ⟨2, List.replicate 3 goodbyeMessage⟩ := by
  simpa using C6_one_goodbye_per_cycle demoNews 2 (by decide) [] 1 le_rfl 3

/-- C2 counterexample: with exactly one stop signal and no second signal,
threads that stay alive, and the grace deadline elapsing, the supervisor's
join loop ends but returns status 0, not the forced-exit status 130 — the
grace-deadline path never sets the force-exit event. -/
theorem C2_counterexample :
    superviseLoop (handleSignal initialSupState) 20 0 none = some 0 ∧
    (0 : Nat) ≠ 130 := by
  constructor
  · rfl
  · decide

/-- C2 amended: with exactly one stop signal and no second signal, once
the elapsed time exceeds the 5 s grace deadline the join loop terminates
but ForceExit is never reached and the supervisor returns the normal
status 0; ForceExit is reached only by a second signal, and whenever the
force-exit event is set the supervisor returns the distinct status 130. -/
theorem C2_grace_timeout_status :
    superviseLoop (handleSignal initialSupState) 20 0 none = some 0 ∧
    (∀ s : SupState, s.firstSignalReceived = true → (handleSignal s).forceExit = true) ∧
    (∀ s : SupState, s.forceExit = true →
      ∀ (fuel now : Nat) (g : Option Nat), superviseLoop s (fuel + 1) now g = some 130) := by
  refine ⟨rfl, ?_, ?_⟩
  · intro s hs
    simp [handleSignal, hs]
  · intro s hs fuel now g
    simp [superviseLoop, hs, exitStatus]

/-- C2 witness: a second signal sets the force-exit event, and the join
loop then returns status 130 immediately. -/
theorem C2_grace_timeout_status_witness :
    (handleSignal (handleSignal initialSupState)).forceExit = true ∧
    superviseLoop (handleSignal (handleSignal initialSupState)) 1 0 none = some 130 :=
  ⟨C2_grace_timeout_status.2.1 (handleSignal initialSupState) rfl,
   C2_grace_timeout_status.2.2 (handleSignal (handleSignal initialSupState))
     (C2_grace_timeout_status.2.1 (handleSignal initialSupState) rfl) 0 0 none⟩

lemma clamp01_of_bounds (x : ℚ) (h0 : 0 ≤ x) (h1 : x ≤ 1) : clamp01 x = x := by
  unfold clamp01
  rw [min_eq_right h1, max_eq_right h0]

lemma tweenLoop_length (dv : ℚ) : ∀ (n : Nat) (v : ℚ), (tweenLoop dv n v).length = n := by
  intro n
  induction n with
  | zero => intro v; rfl
  | succ k ih => intro v; simp [tweenLoop, ih]

lemma tweenLoop_mem_up (dv : ℚ) (hdv : 0 ≤ dv) (lo hi : ℚ) (hlo : 0 ≤ lo) (hhi : hi ≤ 1) :
    ∀ (n : Nat) (v : ℚ), lo ≤ v → v + (n : ℚ) * dv ≤ hi →
      ∀ x ∈ tweenLoop dv n v, lo ≤ x ∧ x ≤ hi := by
  intro n
  induction n with
  | zero =>
    intro v _ _ x hx
    simp [tweenLoop] at hx
  | succ k ih =>
    intro v hv hvn x hx
    have hk : (0:ℚ) ≤ (k:ℚ) * dv := mul_nonneg (Nat.cast_nonneg k) hdv
    have heq : v + ((k + 1 : Nat) : ℚ) * dv = (v + dv) + (k:ℚ) * dv := by
      push_cast
      ring
    rw [heq] at hvn
    have hvd_hi : v + dv ≤ hi := by linarith
    have hvd_lo : lo ≤ v + dv := by linarith
    have hcl : clamp01 (v + dv) = v + dv :=
      clamp01_of_bounds _ (le_trans hlo hvd_lo) (le_trans hvd_hi hhi)
    simp only [tweenLoop, hcl] at hx
    rcases List.mem_cons.mp hx with h | h
    · exact ⟨h ▸ hvd_lo, h ▸ hvd_hi⟩
    · exact ih (v + dv) hvd_lo hvn x h

lemma tweenLoop_mem_down (dv : ℚ) (hdv : dv ≤ 0) (lo hi : ℚ) (hlo : 0 ≤ lo) (hhi : hi ≤ 1) :
    ∀ (n : Nat) (v : ℚ), v ≤ hi → lo ≤ v + (n : ℚ) * dv →
      ∀ x ∈ tweenLoop dv n v, lo ≤ x ∧ x ≤ hi := by
  intro n
  induction n with
  | zero =>
    intro v _ _ x hx
    simp [tweenLoop] at hx
  | succ k ih =>
    intro v hv hvn x hx
    have hk : (k:ℚ) * dv ≤ 0 := mul_nonpos_iff.mpr (Or.inl ⟨Nat.cast_nonneg k, hdv⟩)
    have heq : v + ((k + 1 : Nat) : ℚ) * dv = (v + dv) + (k:ℚ) * dv := by
      push_cast
      ring
    rw [heq] at hvn
    have hvd_lo : lo ≤ v + dv := by linarith
    have hvd_hi : v + dv ≤ hi := by linarith
    have hcl : clamp01 (v + dv) = v + dv :=
      clamp01_of_bounds _ (le_trans hlo hvd_lo) (le_trans hvd_hi hhi)
    simp only [tweenLoop, hcl] at hx
    rcases List.mem_cons.mp hx with h | h
    · exact ⟨h ▸ hvd_lo, h ▸ hvd_hi⟩
    · exact ih (v + dv) hvd_hi hvn x h

lemma tweenVolume_spec (start e : ℚ) (S : Nat) (hS : 1 ≤ S)
    (h0s : 0 ≤ start) (h1s : start ≤ 1) (h0e : 0 ≤ e) (h1e : e ≤ 1) :
    (tweenLoop ((e - start) / (S:ℚ)) S start ++ [e]).length = S + 1 ∧
    (tweenLoop ((e - start) / (S:ℚ)) S start ++ [e]).getLast? = some e ∧
    ∀ x ∈ tweenLoop ((e - start) / (S:ℚ)) S start ++ [e],
      min start e ≤ x ∧ x ≤ max start e := by
  have hS0 : (0:ℚ) < (S:ℚ) := by
    have h1 : (1:ℚ) ≤ (S:ℚ) := by exact_mod_cast hS
    linarith
  have hsum : start + (S:ℚ) * ((e - start) / (S:ℚ)) = e := by
    field_simp
  refine ⟨?_, ?_, ?_⟩
  · simp [tweenLoop_length]
  · simp [List.getLast?_concat]
  · intro x hx
    rcases List.mem_append.mp hx with h | h
    · rcases le_or_lt start e with hse | hse
      · have hdv0 : (0:ℚ) ≤ (e - start) / (S:ℚ) := div_nonneg (by linarith) hS0.le
        have hres := tweenLoop_mem_up ((e - start) / (S:ℚ)) hdv0 start e h0s h1e S start
          le_rfl (le_of_eq hsum) x h
        rw [min_eq_left hse, max_eq_right hse]
        exact hres
      · have hdv0 : (e - start) / (S:ℚ) ≤ 0 :=
          div_nonpos_of_nonpos_of_nonneg (by linarith) hS0.le
        have hres := tweenLoop_mem_down ((e - start) / (S:ℚ)) hdv0 e start h0e h1s S start
          le_rfl (le_of_eq hsum.symm) x h
        rw [min_eq_right hse.le, max_eq_left hse.le]
        exact hres
    · simp only [List.mem_singleton] at h
      subst h
      exact ⟨min_le_right _ _, le_max_right _ _⟩

/-- C5: the tween writes `steps = max(1, ⌊duration·30⌋)` values followed by
a final force-write of the exact end value; for endpoints in [0,1] every
written value (intermediates and the final one) lies between
`min start e` and `max start e`, the last written value is exactly `e`,
and the write list has length `steps + 1`. -/
theorem C5_tween_convergence (start e duration : ℚ)
    (h0s : 0 ≤ start) (h1s : start ≤ 1) (h0e : 0 ≤ e) (h1e : e ≤ 1) :
    (tweenVolume start e duration).length = tweenSteps duration + 1 ∧
    (tweenVolume start e duration).getLast? = some e ∧
    ∀ x ∈ tweenVolume start e duration, min start e ≤ x ∧ x ≤ max start e := by
  have h := tweenVolume_spec start e (tweenSteps duration) (le_max_left 1 _)
    h0s h1s h0e h1e
  simpa [tweenVolume] using h

/-- C5 witness: `tween(0.4, 0.1, 1.0 s)` performs 30 steps plus the final
force-write, ends with the volume exactly 0.1, and every written value
lies in [0.1, 0.4]. -/
theorem C5_tween_convergence_witness :
    (tweenVolume (2/5) (1/10) 1).length = tweenSteps 1 + 1 ∧
    (tweenVolume (2/5) (1/10) 1).getLast? = some (1/10) ∧
    ∀ x ∈ tweenVolume (2/5) (1/10) 1,
      min (2/5 : ℚ) (1/10) ≤ x ∧ x ≤ max (2/5 : ℚ) (1/10) :=
  C5_tween_convergence (2/5) (1/10) 1 (by norm_num) (by norm_num) (by norm_num) (by norm_num)

end SleepAssistant
